import Mathlib

/-! Verification development for the `rtanalysis` repository.

This file shallowly embeds `RTAnalysis.fit` / `RTAnalysis.reject_outlier_rt`
(`rtanalysis/rtanalysis.py`) and `generate_test_df` / `scale_values`
(`rtanalysis/generate_testdata.py`) and proves theorems about them.

Modelling conventions:
- floats are real numbers; a pandas/numpy NaN arising from masking or from an
  empty aggregation is `none : Option ℝ`;
- a pandas series is a list; `Series.mask` keeps positions and replaces the
  masked value by NaN, hence `List (Option ℝ)`;
- an accuracy entry handed to `fit` is `some b` for a genuine boolean and
  `none` for any non-boolean value, so the `accuracy.dtype == bool` assertion
  becomes "every entry is a genuine boolean";
- comparisons against NaN are false, as in numpy (`NaN > 0`, `rt > NaN`);
- the four failure sites of `fit` are named after the spec's error taxonomy. -/

open scoped Classical

/-- Mean of a list of reals (`np.mean` on complete data). An empty list gives
`0/0 = 0` in Lean; every use below either guards emptiness or wraps the mean
in `Option`. -/
noncomputable def listMean (l : List ℝ) : ℝ := l.sum / l.length

/-- The non-missing values of a masked series, in their original order. -/
def nonMissing (l : List (Option ℝ)) : List ℝ := l.filterMap id

/-- `Series.mean()` with the default `skipna=True`: the mean of the non-missing
values, NaN (`none`) when none survive. -/
noncomputable def meanOpt (l : List (Option ℝ)) : Option ℝ :=
  if (nonMissing l).length = 0 then none else some (listMean (nonMissing l))

/-- Population variance, as squared by `np.std` (ddof = 0). -/
noncomputable def popVar (l : List ℝ) : ℝ :=
  (l.map (fun x => (x - listMean l) ^ 2)).sum / l.length

/-- Population standard deviation, `np.std` (ddof = 0). -/
noncomputable def popStd (l : List ℝ) : ℝ := Real.sqrt (popVar l)

/-- Sample variance (ddof = 1), as squared by `Series.std()`. -/
noncomputable def sampleVar (l : List ℝ) : ℝ :=
  (l.map (fun x => (x - listMean l) ^ 2)).sum / ((l.length : ℝ) - 1)

/-- Sample standard deviation (ddof = 1), `Series.std()` on two or more values. -/
noncomputable def sampleStd (l : List ℝ) : ℝ := Real.sqrt (sampleVar l)

/-- `Series.std()`: NaN (`none`) when fewer than two observations are present. -/
noncomputable def pandasStd (l : List ℝ) : Option ℝ :=
  if l.length ≤ 1 then none else some (sampleStd l)

/-- Number of `true` entries of a boolean series. -/
def countTrue (l : List Bool) : ℕ := l.count true

/-- `accuracy.mean()` on a boolean series: the proportion of `true` entries,
NaN (`none`) when the series is empty. -/
noncomputable def meanAccuracy (l : List Bool) : Option ℝ :=
  if l.length = 0 then none else some ((countTrue l : ℝ) / l.length)

/-- `rt.mask(~accuracy)`: positionally keep the value where accuracy is `true`,
make it missing where accuracy is `false`. -/
def maskByAccuracy (rt : List (Option ℝ)) (acc : List Bool) : List (Option ℝ) :=
  List.zipWith (fun o b => if b then o else none) rt acc

/-- An accuracy entry as passed to `fit`: `some b` is a genuine boolean, `none`
stands for any non-boolean value (whose presence makes the series dtype
non-boolean). -/
abbrev AccVal := Option Bool

/-- The assertion `accuracy.dtype == bool`: every entry is a genuine boolean
(a series built from boolean data has dtype `bool`). -/
def allBool (acc : List AccVal) : Bool := acc.all Option.isSome

/-- The boolean contents of a dtype-checked accuracy series. -/
def toBools (acc : List AccVal) : List Bool := acc.map (fun o => o.getD false)

/-- The check `m > 0` on a float that may be NaN (`none`): NaN compares false. -/
def optPos : Option ℝ → Prop
  | none => False
  | some m => 0 < m

/-- The check `rt.min() > 0` on a masked series: the minimum of the non-missing
values must be positive, and the minimum of an all-missing series is NaN,
which also fails the comparison. -/
def rtPositive (rt : List (Option ℝ)) : Prop :=
  nonMissing rt ≠ [] ∧ ∀ x ∈ nonMissing rt, 0 < x

/-- The four failure sites of `fit`, named after the spec's error taxonomy
(in the source: three `ValueError`s and the dtype `AssertionError`). -/
inductive FitError
  | lengthMismatch
  | invalidAccuracy
  | zeroAccuracy
  | negativeRT
deriving DecidableEq

/-- Analyzer state: the construction-time configuration plus the two mutable
result fields, `none` before their first assignment. -/
structure RTAnalysis where
  outlier_cutoff_sd : Option ℝ
  mean_rt_ : Option ℝ
  mean_accuracy_ : Option ℝ

/-- `RTAnalysis.__init__(outlier_cutoff_sd)`. -/
def RTAnalysis.init (c : Option ℝ) : RTAnalysis := ⟨c, none, none⟩

/-- `reject_outlier_rt`: with no configured cutoff return the series unchanged;
otherwise mask every entry strictly above `rt.std() * outlier_cutoff_sd`.
With fewer than two trials `rt.std()` is NaN, `rt > NaN` is everywhere false,
and nothing is masked. -/
noncomputable def RTAnalysis.reject_outlier_rt (a : RTAnalysis) (rt : List ℝ) :
    List (Option ℝ) :=
  match a.outlier_cutoff_sd with
  | none => rt.map some
  | some c =>
    match pandasStd rt with
    | none => rt.map some
    | some s => rt.map (fun x => if s * c < x then none else some x)

/-- `RTAnalysis.fit`, written with the branch conditions in source order:
length check, dtype assertion, zero-accuracy check, positivity check.
The two result fields are assigned exactly where the source assigns them
(`mean_accuracy_` before the zero-accuracy check, `mean_rt_` before the
positivity check), so a late failure still commits the assignments made
before it. Returns the analyzer state after the call together with the
error raised, if any. -/
noncomputable def RTAnalysis.fit (a : RTAnalysis) (rt : List ℝ) (accuracy : List AccVal) :
    RTAnalysis × Option FitError :=
  if rt.length ≠ accuracy.length then (a, some .lengthMismatch)
  else if ¬ (allBool accuracy = true) then (a, some .invalidAccuracy)
  else if ¬ optPos (meanAccuracy (toBools accuracy)) then
    ({ a with mean_accuracy_ := meanAccuracy (toBools accuracy) }, some .zeroAccuracy)
  else if ¬ rtPositive (maskByAccuracy (a.reject_outlier_rt rt) (toBools accuracy)) then
    ({ a with
        mean_accuracy_ := meanAccuracy (toBools accuracy),
        mean_rt_ := meanOpt (maskByAccuracy (a.reject_outlier_rt rt) (toBools accuracy)) },
      some .negativeRT)
  else
    ({ a with
        mean_accuracy_ := meanAccuracy (toBools accuracy),
        mean_rt_ := meanOpt (maskByAccuracy (a.reject_outlier_rt rt) (toBools accuracy)) },
      none)

/-- The response times that survive both outlier masking and accuracy masking:
exactly the values `fit` aggregates into `mean_rt_`. -/
noncomputable def survivingRTs (a : RTAnalysis) (rt : List ℝ) (accuracy : List AccVal) :
    List ℝ :=
  nonMissing (maskByAccuracy (a.reject_outlier_rt rt) (toBools accuracy))

/-- Ascending sort (`np.sort`). -/
noncomputable def sortR (l : List ℝ) : List ℝ := l.insertionSort (· ≤ ·)

/-- `scipy.stats.scoreatpercentile` with the default linear interpolation:
index `per/100 * (n-1)` into the sorted values, interpolating between the two
neighbouring order statistics when the index is fractional. -/
noncomputable def scoreatpercentile (l : List ℝ) (per : ℝ) : ℝ :=
  if per / 100 * ((l.length : ℝ) - 1) - (⌊per / 100 * ((l.length : ℝ) - 1)⌋.toNat : ℝ) = 0
  then (sortR l).getD (⌊per / 100 * ((l.length : ℝ) - 1)⌋.toNat) 0
  else (sortR l).getD (⌊per / 100 * ((l.length : ℝ) - 1)⌋.toNat) 0 +
    (per / 100 * ((l.length : ℝ) - 1) - (⌊per / 100 * ((l.length : ℝ) - 1)⌋.toNat : ℝ)) *
      ((sortR l).getD (⌊per / 100 * ((l.length : ℝ) - 1)⌋.toNat + 1) 0 -
        (sortR l).getD (⌊per / 100 * ((l.length : ℝ) - 1)⌋.toNat) 0)

/-- `scale_values`: multiply by `sd / np.std(values)` (standard deviation of
the non-missing values), then shift so the mean of the non-missing values
becomes `mean`. Missing entries stay missing. Division by a zero standard
deviation yields 0 here where numpy yields non-finite values, so theorems
about `scale_values` carry a nonzero-standard-deviation hypothesis. -/
noncomputable def scale_values (values : List (Option ℝ)) (mean sd : ℝ) : List (Option ℝ) :=
  (values.map (Option.map (fun x => x * (sd / popStd (nonMissing values))))).map
    (Option.map (fun x =>
      x - listMean (nonMissing (values.map (Option.map
        (fun y => y * (sd / popStd (nonMissing values)))))) + mean))

/-- `generate_test_df`, with the random draws made explicit arguments: `raw`
are the raw Weibull response-time samples and `u` the uniform accuracy draws
(both of length `n`). A trial is correct when its uniform draw is strictly
below the `100 * mean_accuracy` empirical percentile of the draws; the
correct trials' response times are rescaled to the target mean/sd, incorrect
trials keep their raw sample. Returns the `rt` and `accuracy` columns. -/
noncomputable def generate_test_df (mean_rt sd_rt mean_accuracy : ℝ) (raw u : List ℝ) :
    List ℝ × List Bool :=
  (List.zipWith (fun o r => o.getD r)
    (scale_values
      (maskByAccuracy (raw.map some)
        (u.map (fun x => decide (x < scoreatpercentile u (100 * mean_accuracy)))))
      mean_rt sd_rt)
    raw,
   u.map (fun x => decide (x < scoreatpercentile u (100 * mean_accuracy))))

/-! Case lemmas for `fit`: one per branch, in source order. -/

theorem fit_case_length {a : RTAnalysis} {rt : List ℝ} {accuracy : List AccVal}
    (h : rt.length ≠ accuracy.length) :
    a.fit rt accuracy = (a, some FitError.lengthMismatch) := by
  unfold RTAnalysis.fit
  rw [if_pos h]

theorem fit_case_dtype {a : RTAnalysis} {rt : List ℝ} {accuracy : List AccVal}
    (h1 : rt.length = accuracy.length) (h2 : ¬ allBool accuracy = true) :
    a.fit rt accuracy = (a, some FitError.invalidAccuracy) := by
  unfold RTAnalysis.fit
  rw [if_neg (not_not_intro h1), if_pos h2]

theorem fit_case_zeroAcc {a : RTAnalysis} {rt : List ℝ} {accuracy : List AccVal}
    (h1 : rt.length = accuracy.length) (h2 : allBool accuracy = true)
    (h3 : ¬ optPos (meanAccuracy (toBools accuracy))) :
    a.fit rt accuracy =
      ({ a with mean_accuracy_ := meanAccuracy (toBools accuracy) },
        some FitError.zeroAccuracy) := by
  unfold RTAnalysis.fit
  rw [if_neg (not_not_intro h1), if_neg (not_not_intro h2), if_pos h3]

theorem fit_case_negRT {a : RTAnalysis} {rt : List ℝ} {accuracy : List AccVal}
    (h1 : rt.length = accuracy.length) (h2 : allBool accuracy = true)
    (h3 : optPos (meanAccuracy (toBools accuracy)))
    (h4 : ¬ rtPositive (maskByAccuracy (a.reject_outlier_rt rt) (toBools accuracy))) :
    a.fit rt accuracy =
      ({ a with
          mean_accuracy_ := meanAccuracy (toBools accuracy),
          mean_rt_ := meanOpt (maskByAccuracy (a.reject_outlier_rt rt) (toBools accuracy)) },
        some FitError.negativeRT) := by
  unfold RTAnalysis.fit
  rw [if_neg (not_not_intro h1), if_neg (not_not_intro h2), if_neg (not_not_intro h3),
    if_pos h4]

theorem fit_case_success {a : RTAnalysis} {rt : List ℝ} {accuracy : List AccVal}
    (h1 : rt.length = accuracy.length) (h2 : allBool accuracy = true)
    (h3 : optPos (meanAccuracy (toBools accuracy)))
    (h4 : rtPositive (maskByAccuracy (a.reject_outlier_rt rt) (toBools accuracy))) :
    a.fit rt accuracy =
      ({ a with
          mean_accuracy_ := meanAccuracy (toBools accuracy),
          mean_rt_ := meanOpt (maskByAccuracy (a.reject_outlier_rt rt) (toBools accuracy)) },
        none) := by
  unfold RTAnalysis.fit
  rw [if_neg (not_not_intro h1), if_neg (not_not_intro h2), if_neg (not_not_intro h3),
    if_neg (not_not_intro h4)]

/-! Small statistics lemmas. -/

theorem listMean_pos {l : List ℝ} (h0 : l ≠ []) (h : ∀ x ∈ l, 0 < x) : 0 < listMean l := by
  have hs : 0 < l.sum := List.sum_pos l h h0
  have hl : 0 < (l.length : ℝ) := by
    exact_mod_cast List.length_pos.mpr h0
  exact div_pos hs hl

theorem countTrue_le_length (l : List Bool) : countTrue l ≤ l.length :=
  List.count_le_length true l

theorem countTrue_eq_zero {l : List Bool} : countTrue l = 0 ↔ ∀ b ∈ l, b = false := by
  simp [countTrue, List.count_eq_zero]

theorem optPos_meanAccuracy {l : List Bool} :
    optPos (meanAccuracy l) ↔ 0 < countTrue l := by
  unfold meanAccuracy
  split
  · rename_i h
    have : l = [] := List.length_eq_zero.mp h
    subst this
    simp [optPos, countTrue]
  · rename_i h
    have hn : (0 : ℝ) < l.length := by
      exact_mod_cast Nat.pos_of_ne_zero h
    show (0 : ℝ) < (countTrue l : ℝ) / l.length ↔ _
    rw [div_pos_iff]
    constructor
    · rintro (⟨hc, _⟩ | ⟨_, hneg⟩)
      · exact_mod_cast hc
      · exact absurd hn (not_lt.mpr hneg.le)
    · intro hc
      exact Or.inl ⟨by exact_mod_cast hc, hn⟩

/-- C6: for every pair of input sequences whose lengths differ, `fit` fails
with `LengthMismatchError` — never succeeds and never raises a different
error, regardless of the contents of either sequence, and the analyzer state
is returned unchanged. -/
theorem fit_length_mismatch_precedence (a : RTAnalysis) (rt : List ℝ)
    (accuracy : List AccVal) (h : rt.length ≠ accuracy.length) :
    a.fit rt accuracy = (a, some FitError.lengthMismatch) :=
  fit_case_length h

/-- Witness for C6: truncating the accuracy column by one element (here a
2-trial table whose accuracy has 1 entry, with a non-boolean entry to show
no accuracy-domain error wins) raises exactly `LengthMismatchError`. -/
theorem fit_length_mismatch_precedence_witness :
    (RTAnalysis.init none).fit [1, 2] [none] =
      (RTAnalysis.init none, some FitError.lengthMismatch) :=
  fit_length_mismatch_precedence (RTAnalysis.init none) [1, 2] [none] (by decide)

/-- C1 counterexample: an analyzer holding a prior fit result
(`mean_accuracy_ = 1/2`) is handed an all-incorrect table; the call fails
with `ZeroAccuracyError`, yet `mean_accuracy_` has been overwritten with the
new zero mean — a failed `fit` does commit partial state. -/
theorem fit_atomicity_counterexample :
    ((RTAnalysis.mk none (some 2) (some (1/2))).fit [1] [some false]).2
        = some FitError.zeroAccuracy ∧
    ((RTAnalysis.mk none (some 2) (some (1/2))).fit [1] [some false]).1.mean_accuracy_
        = some 0 ∧
    (RTAnalysis.mk none (some 2) (some (1/2))).mean_accuracy_ ≠ some 0 := by
  have hma : meanAccuracy (toBools [(some false : AccVal)]) = some 0 := by
    simp [toBools, meanAccuracy, countTrue]
  have hfit := @fit_case_zeroAcc (RTAnalysis.mk none (some 2) (some (1/2)))
    [1] [some false] rfl (by decide)
    (by rw [hma]; simp [optPos])
  rw [hfit]
  refine ⟨rfl, hma, ?_⟩
  simp only [ne_eq, Option.some.injEq]
  norm_num

/-- C1 (amended): how much state a failed `fit` commits depends on the error.
A `LengthMismatchError` or `InvalidAccuracyError` failure leaves the analyzer
exactly as it was; a `ZeroAccuracyError` failure preserves `mean_rt_` but has
already overwritten `mean_accuracy_` with the new (zero or NaN) accuracy mean;
a `NegativeRTError` failure has already overwritten both `mean_accuracy_` and
`mean_rt_` with the newly computed means. The configuration is never touched. -/
theorem fit_failure_state_commit (a : RTAnalysis) (rt : List ℝ) (accuracy : List AccVal)
    (st : RTAnalysis) (e : FitError) (h : a.fit rt accuracy = (st, some e)) :
    st.outlier_cutoff_sd = a.outlier_cutoff_sd ∧
    ((e = FitError.lengthMismatch ∨ e = FitError.invalidAccuracy) → st = a) ∧
    (e = FitError.zeroAccuracy →
      st.mean_rt_ = a.mean_rt_ ∧ st.mean_accuracy_ = meanAccuracy (toBools accuracy)) ∧
    (e = FitError.negativeRT →
      st.mean_accuracy_ = meanAccuracy (toBools accuracy) ∧
      st.mean_rt_ = meanOpt (maskByAccuracy (a.reject_outlier_rt rt) (toBools accuracy))) := by
  unfold RTAnalysis.fit at h
  split_ifs at h with h1 h2 h3 h4 <;> rw [Prod.mk.injEq] at h <;> obtain ⟨hst, he⟩ := h
  all_goals first
  | exact Option.noConfusion he
  | (cases Option.some.inj he; cases hst; simp)

/-- Witness for C1 (amended): a length-mismatch failure leaves the analyzer
(with its prior result fields) untouched. -/
theorem fit_failure_state_commit_witness :
    (RTAnalysis.mk none (some 2) (some (1/2))) = RTAnalysis.mk none (some 2) (some (1/2)) :=
  (fit_failure_state_commit (RTAnalysis.mk none (some 2) (some (1/2))) [1, 2] [some true]
    (RTAnalysis.mk none (some 2) (some (1/2))) FitError.lengthMismatch
    (fit_case_length (by decide))).2.1 (Or.inl rfl)

/-- C10: after every `fit` call that returns without error, the stored results
are well-defined numbers: `mean_rt_` is `some v` with `0 < v` (never NaN) and
`mean_accuracy_` is `some m` with `0 < m ≤ 1`. -/
theorem fit_success_invariants (a : RTAnalysis) (rt : List ℝ) (accuracy : List AccVal)
    (st : RTAnalysis) (h : a.fit rt accuracy = (st, none)) :
    (∃ v, st.mean_rt_ = some v ∧ 0 < v) ∧
    (∃ m, st.mean_accuracy_ = some m ∧ 0 < m ∧ m ≤ 1) := by
  unfold RTAnalysis.fit at h
  split_ifs at h with h1 h2 h3 h4 <;> rw [Prod.mk.injEq] at h <;> obtain ⟨hst, he⟩ := h
  any_goals exact Option.noConfusion he
  · cases hst
    constructor
    · refine ⟨listMean (nonMissing (maskByAccuracy (a.reject_outlier_rt rt) (toBools accuracy))), ?_, ?_⟩
      · show meanOpt _ = _
        unfold meanOpt
        rw [if_neg (fun hz => h4.1 (List.length_eq_zero.mp hz))]
      · exact listMean_pos h4.1 h4.2
    · obtain ⟨m, hm⟩ : ∃ m, meanAccuracy (toBools accuracy) = some m := by
        cases hmm : meanAccuracy (toBools accuracy) with
        | none => rw [hmm] at h3; exact absurd h3 (by simp [optPos])
        | some m => exact ⟨m, rfl⟩
      refine ⟨m, hm, ?_, ?_⟩
      · rw [hm] at h3; exact h3
      · unfold meanAccuracy at hm
        split at hm
        · exact absurd hm (by simp)
        · rename_i hlen
          injection hm with hm'
          rw [← hm']
          apply div_le_one_of_le₀
          · exact_mod_cast countTrue_le_length (toBools accuracy)
          · positivity

/-- Witness for C10: a successful concrete fit (`rt = [2,4]`,
`accuracy = [true, false]`) yields `mean_rt_ = 2 > 0` and
`mean_accuracy_ = 1/2 ∈ (0,1]`. -/
theorem fit_success_invariants_witness :
    (∃ v, (RTAnalysis.mk none (some 2) (some (1/2))).mean_rt_ = some v ∧ 0 < v) ∧
    (∃ m, (RTAnalysis.mk none (some 2) (some (1/2))).mean_accuracy_ = some m ∧
      0 < m ∧ m ≤ 1) := by
  have hma : meanAccuracy (toBools [(some true : AccVal), some false]) = some (1/2) := by
    simp [toBools, meanAccuracy, countTrue]
  have hmask : maskByAccuracy ((RTAnalysis.init none).reject_outlier_rt [2, 4])
      (toBools [(some true : AccVal), some false]) = [some 2, none] := by
    simp [RTAnalysis.reject_outlier_rt, RTAnalysis.init, maskByAccuracy, toBools]
  have hfit := @fit_case_success (RTAnalysis.init none)
    [2, 4] [some true, some false] rfl (by decide)
    (by rw [hma]; norm_num [optPos])
    (by
      rw [hmask]
      constructor
      · simp [nonMissing]
      · intro x hx
        simp [nonMissing] at hx
        subst hx
        norm_num)
  rw [hma, hmask] at hfit
  have hmo : meanOpt [(some 2 : Option ℝ), none] = some 2 := by
    simp [meanOpt, nonMissing, listMean]
  rw [hmo] at hfit
  exact fit_success_invariants (RTAnalysis.init none) [2, 4] [some true, some false]
    (RTAnalysis.mk none (some 2) (some (1/2))) hfit

/-! Lemmas connecting accuracy series, counts and the generated table. -/

theorem toBools_map_some (l : List Bool) : toBools (l.map some) = l := by
  unfold toBools
  rw [List.map_map]
  exact List.map_id'' (fun b => rfl) l

theorem allBool_map_some (l : List Bool) : allBool (l.map some) = true := by
  unfold allBool
  rw [List.all_eq_true]
  intro o ho
  obtain ⟨b, _, rfl⟩ := List.mem_map.mp ho
  rfl

theorem exists_true_iff_countTrue_pos {accuracy : List AccVal} :
    0 < countTrue (toBools accuracy) ↔ ∃ o ∈ accuracy, o = some true := by
  unfold countTrue toBools
  rw [List.count, List.countP_map, List.countP_pos_iff]
  constructor
  · rintro ⟨o, ho, hp⟩
    refine ⟨o, ho, ?_⟩
    cases o <;> simp_all
  · rintro ⟨o, ho, rfl⟩
    exact ⟨some true, ho, by simp⟩

theorem maskByAccuracy_length (rt : List (Option ℝ)) (acc : List Bool) :
    (maskByAccuracy rt acc).length = min rt.length acc.length := by
  simp [maskByAccuracy]

theorem scale_values_length (v : List (Option ℝ)) (m s : ℝ) :
    (scale_values v m s).length = v.length := by
  simp [scale_values]

theorem generate_snd (mr sd p : ℝ) (raw u : List ℝ) :
    (generate_test_df mr sd p raw u).2 =
      u.map (fun x => decide (x < scoreatpercentile u (100 * p))) :=
  rfl

theorem generate_lengths (mr sd p : ℝ) (raw u : List ℝ) (h : raw.length = u.length) :
    (generate_test_df mr sd p raw u).1.length = u.length ∧
    (generate_test_df mr sd p raw u).2.length = u.length := by
  unfold generate_test_df
  simp [scale_values_length, maskByAccuracy_length, h]

theorem scoreatpercentile_zero (l : List ℝ) :
    scoreatpercentile l 0 = (sortR l).getD 0 0 := by
  unfold scoreatpercentile
  norm_num

theorem sortR_head_le {l : List ℝ} {x : ℝ} (hx : x ∈ l) : (sortR l).getD 0 0 ≤ x := by
  have hx' : x ∈ sortR l := ((List.perm_insertionSort (· ≤ ·) l).mem_iff).mpr hx
  have hs : (sortR l).Sorted (· ≤ ·) := List.sorted_insertionSort _ _
  cases hsl : sortR l with
  | nil => rw [hsl] at hx'; simp at hx'
  | cons a t =>
    rw [hsl] at hx' hs
    show a ≤ x
    rcases List.mem_cons.mp hx' with rfl | hmem
    · exact le_refl x
    · exact (List.sorted_cons.mp hs).1 x hmem

/-- C9: for equal-length inputs with strictly boolean accuracy values, `fit`
fails with `ZeroAccuracyError` exactly when the accuracy sequence contains no
`true`; and a table synthesized with `mean_accuracy = 0` (any realization of
the draws) always makes `fit` raise `ZeroAccuracyError`. -/
theorem fit_zero_accuracy_iff (a : RTAnalysis) (rt : List ℝ) (accuracy : List AccVal)
    (h1 : rt.length = accuracy.length) (h2 : allBool accuracy = true) :
    ((a.fit rt accuracy).2 = some FitError.zeroAccuracy ↔
      ∀ o ∈ accuracy, o ≠ some true) ∧
    ∀ (b : RTAnalysis) (mr sd : ℝ) (raw u : List ℝ), raw.length = u.length →
      (b.fit (generate_test_df mr sd 0 raw u).1
        ((generate_test_df mr sd 0 raw u).2.map some)).2 = some FitError.zeroAccuracy := by
  constructor
  · by_cases h3 : optPos (meanAccuracy (toBools accuracy))
    · have hpos : ∃ o ∈ accuracy, o = some true :=
        exists_true_iff_countTrue_pos.mp (optPos_meanAccuracy.mp h3)
      constructor
      · intro habs
        by_cases h4 : rtPositive (maskByAccuracy (a.reject_outlier_rt rt) (toBools accuracy))
        · rw [fit_case_success h1 h2 h3 h4] at habs
          exact Option.noConfusion habs
        · rw [fit_case_negRT h1 h2 h3 h4] at habs
          simp at habs
      · intro hall
        obtain ⟨o, ho, rfl⟩ := hpos
        exact absurd rfl (hall _ ho)
    · rw [fit_case_zeroAcc h1 h2 h3]
      simp only [true_iff]
      intro o ho hcontra
      subst hcontra
      apply h3
      rw [optPos_meanAccuracy]
      exact exists_true_iff_countTrue_pos.mpr ⟨some true, ho, rfl⟩
  · intro b mr sd raw u hlen
    have hthr : (100 : ℝ) * 0 = 0 := by norm_num
    have hacc : ∀ x ∈ (generate_test_df mr sd 0 raw u).2, x = false := by
      intro x hx
      rw [generate_snd, hthr] at hx
      obtain ⟨y, hy, rfl⟩ := List.mem_map.mp hx
      rw [scoreatpercentile_zero]
      simp only [decide_eq_false_iff_not, not_lt]
      exact sortR_head_le hy
    have hlens := generate_lengths mr sd 0 raw u hlen
    have hcnt : countTrue (toBools ((generate_test_df mr sd 0 raw u).2.map some)) = 0 := by
      rw [toBools_map_some]
      exact countTrue_eq_zero.mpr hacc
    have h3 : ¬ optPos (meanAccuracy (toBools ((generate_test_df mr sd 0 raw u).2.map some))) := by
      rw [optPos_meanAccuracy, hcnt]
      exact lt_irrefl 0
    rw [fit_case_zeroAcc (by rw [hlens.1]; simp [hlens.2])
      (allBool_map_some _) h3]

/-- Witness for C9: an all-incorrect boolean table raises `ZeroAccuracyError`,
and so does a synthesized table with `mean_accuracy = 0` (draws `u = [1/2]`,
raw rt `[2]`). -/
theorem fit_zero_accuracy_iff_witness :
    (((RTAnalysis.init none).fit [1, 2] [some false, some false]).2
        = some FitError.zeroAccuracy) ∧
    (((RTAnalysis.init none).fit (generate_test_df 1 1 0 [2] [1/2]).1
        ((generate_test_df 1 1 0 [2] [1/2]).2.map some)).2 = some FitError.zeroAccuracy) :=
  ⟨(fit_zero_accuracy_iff (RTAnalysis.init none) [1, 2] [some false, some false]
      rfl (by decide)).1.mpr (by decide),
   (fit_zero_accuracy_iff (RTAnalysis.init none) [1, 2] [some false, some false]
      rfl (by decide)).2 (RTAnalysis.init none) 1 1 [2] [1/2] rfl⟩

/-! Lemmas for the outlier-rejection pipeline. -/

theorem pandasStd_eq {rt : List ℝ} (hn : 2 ≤ rt.length) :
    pandasStd rt = some (sampleStd rt) := by
  unfold pandasStd
  rw [if_neg (by omega)]

theorem reject_outlier_rt_eq {a : RTAnalysis} {rt : List ℝ} {c s : ℝ}
    (hc : a.outlier_cutoff_sd = some c) (hs : pandasStd rt = some s) :
    a.reject_outlier_rt rt = rt.map (fun x => if s * c < x then none else some x) := by
  unfold RTAnalysis.reject_outlier_rt
  rw [hc, hs]

theorem maskByAccuracy_map (f : ℝ → Option ℝ) (l : List ℝ) (bs : List Bool) :
    maskByAccuracy (l.map f) bs =
      List.zipWith (fun x b => if b then f x else none) l bs := by
  induction l generalizing bs with
  | nil => simp [maskByAccuracy]
  | cons x t ih =>
    cases bs with
    | nil => simp [maskByAccuracy]
    | cons b bt =>
      simp only [List.map_cons, maskByAccuracy, List.zipWith_cons_cons]
      exact congrArg _ (ih bt)

theorem zip_cutoff_form (s : ℝ) (l : List ℝ) (bs : List Bool) :
    List.zipWith (fun x b => if b then (if s < x then none else some x) else none) l bs =
      List.zipWith (fun x b => if b = true ∧ x ≤ s then some x else none) l bs := by
  induction l generalizing bs with
  | nil => simp
  | cons x t ih =>
    cases bs with
    | nil => simp
    | cons b bt =>
      simp only [List.zipWith_cons_cons]
      refine congrArg₂ _ ?_ (ih bt)
      cases b
      · simp
      · by_cases hx : s < x
        · rw [if_pos hx, if_pos rfl, if_neg (by simp [not_le.mpr hx])]
        · rw [if_neg hx, if_pos rfl, if_pos ⟨rfl, not_lt.mp hx⟩]

/-- C4: with an outlier cutoff `c` configured (and at least two trials so the
standard deviation is defined), the cutoff is `sampleStd rt * c`, computed over
all response times before any correctness masking; outlier rejection keeps the
series length (trials are masked, not removed) and masks position `i` exactly
when `rt i` strictly exceeds the cutoff; `mean_accuracy_` is the mean over all
accuracy values, unaffected by outlier exclusion; and whenever `fit` reaches
response-time aggregation, `mean_rt_` is the mean of exactly the values of
correct trials whose response time is at most the cutoff. -/
theorem outlier_rejection_semantics (a : RTAnalysis) (rt : List ℝ)
    (accuracy : List AccVal) (c : ℝ)
    (hc : a.outlier_cutoff_sd = some c) (hn : 2 ≤ rt.length)
    (h1 : rt.length = accuracy.length) (h2 : allBool accuracy = true) :
    (a.reject_outlier_rt rt).length = rt.length ∧
    (∀ i, i < rt.length →
      (a.reject_outlier_rt rt).getD i none =
        (if sampleStd rt * c < rt.getD i 0 then none else some (rt.getD i 0))) ∧
    ((a.fit rt accuracy).1.mean_accuracy_ = meanAccuracy (toBools accuracy)) ∧
    ((a.fit rt accuracy).2 = none ∨ (a.fit rt accuracy).2 = some FitError.negativeRT →
      (a.fit rt accuracy).1.mean_rt_ =
        meanOpt (List.zipWith
          (fun x b => if b = true ∧ x ≤ sampleStd rt * c then some x else none)
          rt (toBools accuracy))) := by
  have hs : pandasStd rt = some (sampleStd rt) := pandasStd_eq hn
  have hrej := reject_outlier_rt_eq hc hs
  have hmask : maskByAccuracy (a.reject_outlier_rt rt) (toBools accuracy) =
      List.zipWith (fun x b => if b = true ∧ x ≤ sampleStd rt * c then some x else none)
        rt (toBools accuracy) := by
    rw [hrej, maskByAccuracy_map, zip_cutoff_form]
  refine ⟨?_, ?_, ?_, ?_⟩
  · rw [hrej, List.length_map]
  · intro i hi
    rw [hrej]
    rw [List.getD_eq_getElem _ _ (by simpa using hi), List.getElem_map,
      List.getD_eq_getElem _ _ hi]
  · by_cases h3 : optPos (meanAccuracy (toBools accuracy))
    · by_cases h4 : rtPositive (maskByAccuracy (a.reject_outlier_rt rt) (toBools accuracy))
      · rw [fit_case_success h1 h2 h3 h4]
      · rw [fit_case_negRT h1 h2 h3 h4]
    · rw [fit_case_zeroAcc h1 h2 h3]
  · intro hagg
    by_cases h3 : optPos (meanAccuracy (toBools accuracy))
    · by_cases h4 : rtPositive (maskByAccuracy (a.reject_outlier_rt rt) (toBools accuracy))
      · rw [fit_case_success h1 h2 h3 h4]
        show meanOpt _ = _
        rw [hmask]
      · rw [fit_case_negRT h1 h2 h3 h4]
        show meanOpt _ = _
        rw [hmask]
    · rw [fit_case_zeroAcc h1 h2 h3] at hagg
      rcases hagg with hagg | hagg <;> exact absurd hagg (by simp)

/-- Witness for C4: a cutoff of 2 standard deviations on a concrete 5-trial
table; the rejected series keeps all 5 positions. -/
theorem outlier_rejection_semantics_witness :
    ((RTAnalysis.init (some 2)).reject_outlier_rt [1, 1, 3, 3, 2]).length = 5 :=
  (outlier_rejection_semantics (RTAnalysis.init (some 2)) [1, 1, 3, 3, 2]
    [some true, some true, some true, some false, some false] 2
    rfl (by norm_num) rfl (by decide)).1

/-! A concrete fit call in which the outlier cutoff masks every correct
trial: `rt = [1,1,3,3,2]` has sample standard deviation 1, so a cutoff of
1 sd masks the response times 3, 3, 2 — exactly the correct trials. -/

theorem sampleStd_masked_example : sampleStd [1, 1, 3, 3, 2] = 1 := by
  have hv : sampleVar [1, 1, 3, 3, 2] = 1 := by
    unfold sampleVar listMean
    norm_num
  rw [sampleStd, hv, Real.sqrt_one]

theorem pandasStd_masked_example : pandasStd [1, 1, 3, 3, 2] = some 1 := by
  rw [pandasStd_eq (by norm_num), sampleStd_masked_example]

theorem mask_all_example :
    maskByAccuracy ((RTAnalysis.init (some 1)).reject_outlier_rt [1, 1, 3, 3, 2])
      (toBools [some false, some false, some true, some true, some true]) =
      [none, none, none, none, none] := by
  rw [reject_outlier_rt_eq rfl pandasStd_masked_example]
  simp only [List.map_cons, List.map_nil, maskByAccuracy, toBools, Option.getD_some,
    List.zipWith_cons_cons, List.zipWith_nil_right, if_false, if_true]
  norm_num

theorem fit_masked_example :
    (RTAnalysis.init (some 1)).fit [1, 1, 3, 3, 2]
      [some false, some false, some true, some true, some true] =
      (RTAnalysis.mk (some 1) none (some (3/5)), some FitError.negativeRT) := by
  have hma : meanAccuracy
      (toBools [(some false : AccVal), some false, some true, some true, some true]) =
      some (3/5) := by
    simp [toBools, meanAccuracy, countTrue]
  have h4 : ¬ rtPositive
      (maskByAccuracy ((RTAnalysis.init (some 1)).reject_outlier_rt [1, 1, 3, 3, 2])
        (toBools [some false, some false, some true, some true, some true])) := by
    rw [mask_all_example]
    exact fun h => h.1 (by simp [nonMissing])
  rw [fit_case_negRT rfl (by decide) (by rw [hma]; norm_num [optPos]) h4,
    mask_all_example, hma]
  simp [meanOpt, nonMissing, RTAnalysis.init]

theorem surviving_masked_example :
    survivingRTs (RTAnalysis.init (some 1)) [1, 1, 3, 3, 2]
      [some false, some false, some true, some true, some true] = [] := by
  unfold survivingRTs
  rw [mask_all_example]
  rfl

/-- C2 counterexample: valid inputs (equal lengths, boolean accuracy, three
correct trials) whose configured cutoff (1 sd = 1) masks out every correct
trial's response time; the claim says `fit` completes without error with a NaN
mean, but the code raises `NegativeRTError` (the NaN minimum of the empty
surviving set fails the strict positivity check). -/
theorem fit_all_masked_counterexample :
    ((RTAnalysis.init (some 1)).fit [1, 1, 3, 3, 2]
      [some false, some false, some true, some true, some true]).2 =
      some FitError.negativeRT := by
  rw [fit_masked_example]

/-- A helper: masking every correct trial empties the surviving set. -/
theorem nonMissing_zip_nil (f : ℝ → Option ℝ) (l : List ℝ) (bs : List Bool)
    (h : ∀ i < l.length, bs.getD i false = true → f (l.getD i 0) = none) :
    nonMissing (List.zipWith (fun x b => if b then f x else none) l bs) = [] := by
  induction l generalizing bs with
  | nil => simp [nonMissing]
  | cons x t ih =>
    cases bs with
    | nil => simp [nonMissing]
    | cons b bt =>
      simp only [List.zipWith_cons_cons]
      have htail : nonMissing (List.zipWith (fun x b => if b then f x else none) t bt)
          = [] := by
        apply ih
        intro i hi hb
        exact h (i + 1) (by simpa using Nat.succ_lt_succ hi) (by simpa using hb)
      cases b
      · simpa [nonMissing] using htail
      · have hx : f x = none := h 0 (by simp) (by simp)
        rw [if_pos rfl, hx]
        simpa [nonMissing] using htail

/-- C2 (amended): for every fit call on valid inputs (equal lengths, boolean
accuracy, at least one correct trial) where the configured outlier cutoff
masks out every correct trial's response time, `fit` does not complete: it
raises `NegativeRTError`, because the minimum of the empty surviving set is
NaN and fails the strict positivity check. The NaN (undefined) mean is still
committed to `mean_rt_` before the failure. -/
theorem fit_all_correct_masked (a : RTAnalysis) (rt : List ℝ) (accuracy : List AccVal)
    (c s : ℝ) (hc : a.outlier_cutoff_sd = some c) (hs : pandasStd rt = some s)
    (h1 : rt.length = accuracy.length) (h2 : allBool accuracy = true)
    (h3 : ∃ o ∈ accuracy, o = some true)
    (hmask : ∀ i < rt.length, (toBools accuracy).getD i false = true →
      s * c < rt.getD i 0) :
    (a.fit rt accuracy).2 = some FitError.negativeRT ∧
    (a.fit rt accuracy).1.mean_rt_ = none := by
  have h3' : optPos (meanAccuracy (toBools accuracy)) :=
    optPos_meanAccuracy.mpr (exists_true_iff_countTrue_pos.mpr h3)
  have hnil : nonMissing (maskByAccuracy (a.reject_outlier_rt rt) (toBools accuracy))
      = [] := by
    rw [reject_outlier_rt_eq hc hs, maskByAccuracy_map]
    apply nonMissing_zip_nil
    intro i hi hb
    rw [if_pos (hmask i hi hb)]
  have h4 : ¬ rtPositive (maskByAccuracy (a.reject_outlier_rt rt) (toBools accuracy)) :=
    fun h => h.1 hnil
  rw [fit_case_negRT h1 h2 h3' h4]
  refine ⟨rfl, ?_⟩
  show meanOpt _ = none
  unfold meanOpt
  rw [if_pos (by rw [hnil]; rfl)]

/-- Witness for C2 (amended): the concrete all-correct-masked table raises
`NegativeRTError` with `mean_rt_` set to NaN. -/
theorem fit_all_correct_masked_witness :
    ((RTAnalysis.init (some 1)).fit [1, 1, 3, 3, 2]
      [some false, some false, some true, some true, some true]).2 =
      some FitError.negativeRT ∧
    ((RTAnalysis.init (some 1)).fit [1, 1, 3, 3, 2]
      [some false, some false, some true, some true, some true]).1.mean_rt_ = none :=
  fit_all_correct_masked (RTAnalysis.init (some 1)) [1, 1, 3, 3, 2]
    [some false, some false, some true, some true, some true] 1 1
    rfl pandasStd_masked_example rfl (by decide)
    ⟨some true, by simp, rfl⟩
    (by
      intro i hi hb
      simp only [List.length_cons, List.length_nil] at hi
      interval_cases i <;>
        simp_all [toBools, List.getD_cons_zero, List.getD_cons_succ])

/-- C8 (amended): once length, accuracy-domain and zero-accuracy validation
pass, `fit` fails with `NegativeRTError` if and only if either some remaining
non-missing response time (a correct, non-outlier-excluded trial) is ≤ 0, or
no remaining non-missing response time exists at all (every correct trial was
outlier-masked, so the NaN minimum fails the strict check). Non-positive
response times on incorrect or outlier-excluded trials alone never trigger it. -/
theorem fit_negative_rt_iff (a : RTAnalysis) (rt : List ℝ) (accuracy : List AccVal)
    (h1 : rt.length = accuracy.length) (h2 : allBool accuracy = true)
    (h3 : ∃ o ∈ accuracy, o = some true) :
    ((a.fit rt accuracy).2 = some FitError.negativeRT ↔
      survivingRTs a rt accuracy = [] ∨ ∃ x ∈ survivingRTs a rt accuracy, x ≤ 0) := by
  unfold survivingRTs
  have h3' : optPos (meanAccuracy (toBools accuracy)) :=
    optPos_meanAccuracy.mpr (exists_true_iff_countTrue_pos.mpr h3)
  by_cases h4 : rtPositive (maskByAccuracy (a.reject_outlier_rt rt) (toBools accuracy))
  · rw [fit_case_success h1 h2 h3' h4]
    apply iff_of_false
    · simp
    · rintro (hemp | ⟨x, hx, hle⟩)
      · exact h4.1 hemp
      · exact absurd (h4.2 x hx) (not_lt.mpr hle)
  · rw [fit_case_negRT h1 h2 h3' h4]
    apply iff_of_true rfl
    unfold rtPositive at h4
    push_neg at h4
    by_cases hemp :
        nonMissing (maskByAccuracy (a.reject_outlier_rt rt) (toBools accuracy)) = []
    · exact Or.inl hemp
    · obtain ⟨x, hx, hle⟩ := h4 hemp
      exact Or.inr ⟨x, hx, hle⟩

/-- C8 counterexample: with every correct trial outlier-masked, no remaining
non-missing response time exists (so none is ≤ 0), yet `fit` fails with
`NegativeRTError` — the claimed iff fails in the only-if direction. -/
theorem fit_negative_rt_counterexample :
    (∀ x ∈ survivingRTs (RTAnalysis.init (some 1)) [1, 1, 3, 3, 2]
        [some false, some false, some true, some true, some true], 0 < x) ∧
    ((RTAnalysis.init (some 1)).fit [1, 1, 3, 3, 2]
        [some false, some false, some true, some true, some true]).2 =
      some FitError.negativeRT := by
  constructor
  · rw [surviving_masked_example]
    intro x hx
    exact absurd hx (List.not_mem_nil x)
  · rw [fit_masked_example]

/-- Witness for C8 (amended): a surviving response time of `-1` (correct,
non-excluded) makes `fit` fail with `NegativeRTError` via the iff. -/
theorem fit_negative_rt_iff_witness :
    ((RTAnalysis.init none).fit [-1, 2] [some true, some true]).2 =
      some FitError.negativeRT :=
  (fit_negative_rt_iff (RTAnalysis.init none) [-1, 2] [some true, some true]
    rfl (by decide) ⟨some true, by simp, rfl⟩).mpr
    (Or.inr ⟨-1, by
      unfold survivingRTs
      rw [show (RTAnalysis.init none).reject_outlier_rt [-1, 2] = [some (-1), some 2]
        from rfl]
      simp [maskByAccuracy, toBools, nonMissing], by norm_num⟩)

/-! Algebra of means and population standard deviations under the linear
scale-and-shift transform. -/

theorem sum_map_mul_right (l : List ℝ) (f : ℝ → ℝ) (k : ℝ) :
    (l.map (fun x => f x * k)).sum = (l.map f).sum * k := by
  induction l with
  | nil => simp
  | cons a t ih =>
    simp only [List.map_cons, List.sum_cons, ih]
    ring

theorem listMean_map_mul (l : List ℝ) (k : ℝ) :
    listMean (l.map (fun x => x * k)) = listMean l * k := by
  unfold listMean
  rw [List.length_map]
  have h : (l.map (fun x => x * k)).sum = l.sum * k := by
    induction l with
    | nil => simp
    | cons a t ih =>
      simp only [List.map_cons, List.sum_cons, ih]
      ring
  rw [h]
  ring

theorem sum_map_shift (l : List ℝ) (c : ℝ) :
    (l.map (fun x => x + c)).sum = l.sum + l.length * c := by
  induction l with
  | nil => simp
  | cons a t ih =>
    simp only [List.map_cons, List.sum_cons, ih, List.length_cons]
    push_cast
    ring

theorem listMean_map_shift (l : List ℝ) (c : ℝ) (h : l ≠ []) :
    listMean (l.map (fun x => x + c)) = listMean l + c := by
  unfold listMean
  rw [List.length_map, sum_map_shift]
  have hn : (l.length : ℝ) ≠ 0 := by
    exact_mod_cast (List.length_pos.mpr h).ne'
  field_simp
  ring

theorem popVar_map_mul (l : List ℝ) (k : ℝ) :
    popVar (l.map (fun x => x * k)) = popVar l * k ^ 2 := by
  unfold popVar
  rw [List.length_map, listMean_map_mul, List.map_map]
  have h : ((fun x => (x - listMean l * k) ^ 2) ∘ fun x => x * k) =
      (fun x => (x - listMean l) ^ 2 * k ^ 2) := by
    funext x
    simp only [Function.comp]
    ring
  rw [h, sum_map_mul_right]
  ring

theorem popVar_map_shift (l : List ℝ) (c : ℝ) :
    popVar (l.map (fun x => x + c)) = popVar l := by
  rcases eq_or_ne l [] with rfl | h
  · rfl
  · unfold popVar
    rw [List.length_map, listMean_map_shift l c h, List.map_map]
    have heq : ((fun x => (x - (listMean l + c)) ^ 2) ∘ fun x => x + c) =
        (fun x => (x - listMean l) ^ 2) := by
      funext x
      simp only [Function.comp]
      ring
    rw [heq]

theorem popVar_nonneg (l : List ℝ) : 0 ≤ popVar l := by
  unfold popVar
  apply div_nonneg
  · apply List.sum_nonneg
    intro x hx
    obtain ⟨y, _, rfl⟩ := List.mem_map.mp hx
    positivity
  · positivity

theorem popStd_nonneg (l : List ℝ) : 0 ≤ popStd l := Real.sqrt_nonneg _

theorem popStd_map_mul (l : List ℝ) (k : ℝ) (hk : 0 ≤ k) :
    popStd (l.map (fun x => x * k)) = popStd l * k := by
  unfold popStd
  rw [popVar_map_mul, Real.sqrt_mul (popVar_nonneg l), Real.sqrt_sq hk]

theorem popStd_map_shift (l : List ℝ) (c : ℝ) :
    popStd (l.map (fun x => x + c)) = popStd l := by
  unfold popStd
  rw [popVar_map_shift]

theorem nonMissing_map_optionMap (f : ℝ → ℝ) (l : List (Option ℝ)) :
    nonMissing (l.map (Option.map f)) = (nonMissing l).map f := by
  induction l with
  | nil => rfl
  | cons o t ih =>
    cases o <;> simp_all [nonMissing, List.filterMap_cons]

theorem scale_values_nonMissing (v : List (Option ℝ)) (mean sd : ℝ) :
    nonMissing (scale_values v mean sd) =
      ((nonMissing v).map (fun x => x * (sd / popStd (nonMissing v)))).map
        (fun x => x - listMean ((nonMissing v).map
          (fun x => x * (sd / popStd (nonMissing v)))) + mean) := by
  unfold scale_values
  rw [nonMissing_map_optionMap, nonMissing_map_optionMap]

theorem scale_values_mean (v : List (Option ℝ)) (mean sd : ℝ)
    (hne : nonMissing v ≠ []) :
    listMean (nonMissing (scale_values v mean sd)) = mean := by
  rw [scale_values_nonMissing]
  set L1 := (nonMissing v).map (fun x => x * (sd / popStd (nonMissing v))) with hL1
  have hne1 : L1 ≠ [] := by
    rw [hL1]
    simpa [List.map_eq_nil_iff] using hne
  have hshift : (fun x => x - listMean L1 + mean) =
      (fun x => x + (mean - listMean L1)) := by
    funext x
    ring
  rw [hshift, listMean_map_shift L1 _ hne1]
  ring

theorem scale_values_std (v : List (Option ℝ)) (mean sd : ℝ)
    (hne : nonMissing v ≠ []) (hs : popStd (nonMissing v) ≠ 0) (hsd : 0 ≤ sd) :
    popStd (nonMissing (scale_values v mean sd)) = sd := by
  rw [scale_values_nonMissing]
  set L1 := (nonMissing v).map (fun x => x * (sd / popStd (nonMissing v))) with hL1
  have hs0 : 0 < popStd (nonMissing v) := (popStd_nonneg _).lt_of_ne (Ne.symm hs)
  have hshift : (fun x => x - listMean L1 + mean) =
      (fun x => x + (mean - listMean L1)) := by
    funext x
    ring
  rw [hshift, popStd_map_shift, hL1, popStd_map_mul _ _ (by positivity), mul_comm,
    div_mul_cancel₀ _ hs]

/-- C5: for every masked numeric sequence whose non-missing values have nonzero
(population) standard deviation, and targets `m1` and `s1 > 0`, `scale_values`
yields non-missing values with mean exactly `m1` and standard deviation exactly
`s1`; consequently rescaling again to any targets `m2`, `s2 ≥ 0` yields mean
`m2` and standard deviation `s2` regardless of the original values. -/
theorem scale_values_postcondition (x : List (Option ℝ)) (m1 s1 m2 s2 : ℝ)
    (hne : nonMissing x ≠ []) (hsx : popStd (nonMissing x) ≠ 0)
    (hs1 : 0 < s1) (hs2 : 0 ≤ s2) :
    listMean (nonMissing (scale_values x m1 s1)) = m1 ∧
    popStd (nonMissing (scale_values x m1 s1)) = s1 ∧
    listMean (nonMissing (scale_values (scale_values x m1 s1) m2 s2)) = m2 ∧
    popStd (nonMissing (scale_values (scale_values x m1 s1) m2 s2)) = s2 := by
  have h1s := scale_values_std x m1 s1 hne hsx hs1.le
  have hne1 : nonMissing (scale_values x m1 s1) ≠ [] := by
    rw [scale_values_nonMissing]
    simpa [List.map_eq_nil_iff] using hne
  have hs1' : popStd (nonMissing (scale_values x m1 s1)) ≠ 0 := by
    rw [h1s]
    exact hs1.ne'
  exact ⟨scale_values_mean x m1 s1 hne, h1s,
    scale_values_mean _ m2 s2 hne1, scale_values_std _ m2 s2 hne1 hs1' hs2⟩

/-- Witness for C5: `x = [some 1, some 3]` (mean 2, population sd 1), scaled to
mean 5 / sd 2, then rescaled to mean 0 / sd 1. -/
theorem scale_values_postcondition_witness :
    listMean (nonMissing (scale_values [some 1, some 3] 5 2)) = 5 ∧
    popStd (nonMissing (scale_values [some 1, some 3] 5 2)) = 2 ∧
    listMean (nonMissing (scale_values (scale_values [some 1, some 3] 5 2) 0 1)) = 0 ∧
    popStd (nonMissing (scale_values (scale_values [some 1, some 3] 5 2) 0 1)) = 1 := by
  have hnm : nonMissing [some 1, some 3] = [1, 3] := by
    simp [nonMissing]
  have hvar : popVar [(1 : ℝ), 3] = 1 := by
    unfold popVar listMean
    norm_num
  have hstd : popStd [(1 : ℝ), 3] = 1 := by
    rw [popStd, hvar, Real.sqrt_one]
  exact scale_values_postcondition [some 1, some 3] 5 2 0 1
    (by rw [hnm]; simp) (by rw [hnm, hstd]; norm_num) (by norm_num) (by norm_num)

/-! Order-statistics machinery: counting values strictly below a percentile
threshold of a sorted, duplicate-free sample. -/

theorem sortR_sorted (l : List ℝ) : (sortR l).Sorted (· ≤ ·) :=
  List.sorted_insertionSort _ _

theorem sortR_perm (l : List ℝ) : (sortR l).Perm l :=
  List.perm_insertionSort _ _

theorem sortR_length (l : List ℝ) : (sortR l).length = l.length :=
  (sortR_perm l).length_eq

theorem sortR_strict (l : List ℝ) (hd : l.Nodup) : (sortR l).Sorted (· < ·) :=
  (sortR_sorted l).lt_of_le ((sortR_perm l).nodup_iff.mpr hd)

theorem sorted_getD_zero_le {l : List ℝ} (hs : l.Sorted (· ≤ ·)) {y : ℝ} (hy : y ∈ l) :
    l.getD 0 0 ≤ y := by
  cases l with
  | nil => simp at hy
  | cons a t =>
    rw [List.getD_cons_zero]
    rcases List.mem_cons.mp hy with rfl | hmem
    · exact le_refl y
    · exact (List.sorted_cons.mp hs).1 y hmem

theorem countP_lt_getD (l : List ℝ) : l.Sorted (· < ·) →
    ∀ k, k < l.length → l.countP (fun x => decide (x < l.getD k 0)) = k := by
  induction l with
  | nil =>
    intro _ k hk
    simp at hk
  | cons a t ih =>
    intro hs k hk
    cases k with
    | zero =>
      rw [List.getD_cons_zero, List.countP_cons]
      have h0 : t.countP (fun x => decide (x < a)) = 0 := by
        apply List.countP_eq_zero.mpr
        intro y hy
        simp only [decide_eq_true_eq]
        exact not_lt.mpr (le_of_lt ((List.sorted_cons.mp hs).1 y hy))
      rw [h0]
      simp
    | succ k =>
      rw [List.getD_cons_succ, List.countP_cons]
      have hk' : k < t.length := by simpa using Nat.lt_of_succ_lt_succ hk
      have hmem : t.getD k 0 ∈ t := by
        rw [List.getD_eq_getElem t 0 hk']
        exact List.getElem_mem hk'
      have ha : a < t.getD k 0 := (List.sorted_cons.mp hs).1 _ hmem
      rw [ih (List.sorted_cons.mp hs).2 k hk', if_pos (decide_eq_true ha)]

theorem countP_lt_between (l : List ℝ) : l.Sorted (· < ·) →
    ∀ k, k < l.length → ∀ t : ℝ, l.getD k 0 < t →
      (∀ _ : k + 1 < l.length, t ≤ l.getD (k + 1) 0) →
      l.countP (fun x => decide (x < t)) = k + 1 := by
  induction l with
  | nil =>
    intro _ k hk
    simp at hk
  | cons a tl ih =>
    intro hs k hk tt h1 h2
    cases k with
    | zero =>
      rw [List.getD_cons_zero] at h1
      rw [List.countP_cons]
      have h0 : tl.countP (fun x => decide (x < tt)) = 0 := by
        apply List.countP_eq_zero.mpr
        intro y hy
        simp only [decide_eq_true_eq, not_lt]
        have hlen : 0 + 1 < (a :: tl).length := by
          simp only [List.length_cons, Nat.zero_add]
          exact Nat.succ_lt_succ (List.length_pos.mpr (List.ne_nil_of_mem hy))
        have h2' := h2 hlen
        rw [List.getD_cons_succ] at h2'
        exact le_trans h2'
          (sorted_getD_zero_le ((List.sorted_cons.mp hs).2.imp le_of_lt) hy)
      rw [h0]
      simp [h1]
    | succ k =>
      rw [List.getD_cons_succ] at h1
      rw [List.countP_cons]
      have hk' : k < tl.length := by simpa using Nat.lt_of_succ_lt_succ hk
      have h2' : ∀ _ : k + 1 < tl.length, tt ≤ tl.getD (k + 1) 0 := by
        intro h
        have hh := h2 (by simpa using Nat.succ_lt_succ h)
        rwa [List.getD_cons_succ] at hh
      have hmem : tl.getD k 0 ∈ tl := by
        rw [List.getD_eq_getElem tl 0 hk']
        exact List.getElem_mem hk'
      have ha : a < tt := lt_trans ((List.sorted_cons.mp hs).1 _ hmem) h1
      rw [ih (List.sorted_cons.mp hs).2 k hk' tt h1 h2', if_pos (decide_eq_true ha)]

theorem scoreDiv (p : ℝ) : (100 * p) / 100 = p :=
  mul_div_cancel_left₀ p (by norm_num)

theorem count_below_scoreatpercentile (u : List ℝ) (p : ℝ)
    (hp0 : 0 ≤ p) (hp1 : p ≤ 1) (hne : u ≠ []) (hd : u.Nodup) :
    u.countP (fun x => decide (x < scoreatpercentile u (100 * p))) =
      ⌊p * ((u.length : ℝ) - 1)⌋.toNat +
        (if p * ((u.length : ℝ) - 1) - ((⌊p * ((u.length : ℝ) - 1)⌋.toNat : ℕ) : ℝ) = 0
         then 0 else 1) := by
  have hn1 : 1 ≤ u.length := List.length_pos.mpr hne
  have hsub : (0 : ℝ) ≤ (u.length : ℝ) - 1 := by
    have h : (1 : ℝ) ≤ (u.length : ℝ) := by exact_mod_cast hn1
    linarith
  have hidx0 : 0 ≤ p * ((u.length : ℝ) - 1) := mul_nonneg hp0 hsub
  have hidx1 : p * ((u.length : ℝ) - 1) ≤ (u.length : ℝ) - 1 := by nlinarith
  have hKfloor : ((⌊p * ((u.length : ℝ) - 1)⌋.toNat : ℕ) : ℝ) =
      ((⌊p * ((u.length : ℝ) - 1)⌋ : ℤ) : ℝ) := by
    exact_mod_cast Int.toNat_of_nonneg (Int.floor_nonneg.mpr hidx0)
  have hKle : ((⌊p * ((u.length : ℝ) - 1)⌋.toNat : ℕ) : ℝ) ≤ p * ((u.length : ℝ) - 1) := by
    rw [hKfloor]
    exact Int.floor_le _
  have hKlt : p * ((u.length : ℝ) - 1) <
      ((⌊p * ((u.length : ℝ) - 1)⌋.toNat : ℕ) : ℝ) + 1 := by
    rw [hKfloor]
    exact Int.lt_floor_add_one _
  have hKn : ⌊p * ((u.length : ℝ) - 1)⌋.toNat < u.length := by
    have h : ((⌊p * ((u.length : ℝ) - 1)⌋.toNat : ℕ) : ℝ) < (u.length : ℝ) := by linarith
    exact_mod_cast h
  have hsorted := sortR_strict u hd
  have hslen : (sortR u).length = u.length := sortR_length u
  unfold scoreatpercentile
  rw [scoreDiv]
  by_cases hfz : p * ((u.length : ℝ) - 1) -
      ((⌊p * ((u.length : ℝ) - 1)⌋.toNat : ℕ) : ℝ) = 0
  · rw [if_pos hfz, if_pos hfz, Nat.add_zero, ← (sortR_perm u).countP_eq]
    exact countP_lt_getD (sortR u) hsorted _ (by rw [hslen]; exact hKn)
  · rw [if_neg hfz, if_neg hfz, ← (sortR_perm u).countP_eq]
    have hKlt' : ((⌊p * ((u.length : ℝ) - 1)⌋.toNat : ℕ) : ℝ) <
        p * ((u.length : ℝ) - 1) :=
      lt_of_le_of_ne hKle (fun h => hfz (sub_eq_zero.mpr h.symm))
    have hK1n : ⌊p * ((u.length : ℝ) - 1)⌋.toNat + 1 < u.length := by
      have h : ((⌊p * ((u.length : ℝ) - 1)⌋.toNat : ℕ) : ℝ) + 1 < (u.length : ℝ) := by
        linarith
      exact_mod_cast h
    have h1l : ⌊p * ((u.length : ℝ) - 1)⌋.toNat < (sortR u).length := by
      rw [hslen]
      exact hKn
    have h2l : ⌊p * ((u.length : ℝ) - 1)⌋.toNat + 1 < (sortR u).length := by
      rw [hslen]
      exact hK1n
    have hstep : (sortR u).getD (⌊p * ((u.length : ℝ) - 1)⌋.toNat) 0 <
        (sortR u).getD (⌊p * ((u.length : ℝ) - 1)⌋.toNat + 1) 0 := by
      have hrel := hsorted.rel_get_of_lt (a := ⟨_, h1l⟩) (b := ⟨_, h2l⟩)
        (Fin.mk_lt_mk.mpr (Nat.lt_succ_self _))
      rw [List.getD_eq_getElem _ _ h1l, List.getD_eq_getElem _ _ h2l]
      simpa using hrel
    apply countP_lt_between (sortR u) hsorted _ (by rw [hslen]; exact hKn)
    · nlinarith
    · intro _
      nlinarith

theorem countTrue_generate (mr sd p : ℝ) (raw u : List ℝ) :
    countTrue (generate_test_df mr sd p raw u).2 =
      u.countP (fun x => decide (x < scoreatpercentile u (100 * p))) := by
  unfold countTrue
  rw [generate_snd]
  have hc : List.count true
      (u.map (fun x => decide (x < scoreatpercentile u (100 * p)))) =
      List.countP (· == true)
        (u.map (fun x => decide (x < scoreatpercentile u (100 * p)))) := rfl
  rw [hc, List.countP_map]
  congr 1
  funext x
  simp [Function.comp]

/-- C7 (amended): the synthesizer marks trial `i` correct exactly when its
uniform draw is strictly below the `mean_accuracy * 100` empirical percentile
of the draws; for pairwise-distinct draws the number of correct trials equals
`mean_accuracy * n` up to rounding (within 1); `mean_accuracy = 0` yields no
correct trial, but `mean_accuracy = 1` yields `n - 1` correct trials — the
trial holding the maximal draw is excluded, not all `n`; and the accuracy
column depends only on the uniform draws (it is independent of the
response-time samples and targets). -/
theorem generate_accuracy_semantics (mr sd mr' sd' p : ℝ) (raw raw' u : List ℝ)
    (hp0 : 0 ≤ p) (hp1 : p ≤ 1) (hne : u ≠ []) (hd : u.Nodup) :
    (∀ i, i < u.length →
      ((generate_test_df mr sd p raw u).2.getD i false = true ↔
        u.getD i 0 < scoreatpercentile u (100 * p))) ∧
    |((countTrue (generate_test_df mr sd p raw u).2 : ℝ)) - p * u.length| ≤ 1 ∧
    (p = 0 → countTrue (generate_test_df mr sd p raw u).2 = 0) ∧
    (p = 1 → countTrue (generate_test_df mr sd p raw u).2 = u.length - 1) ∧
    (generate_test_df mr sd p raw u).2 = (generate_test_df mr' sd' p raw' u).2 := by
  have hn1 : 1 ≤ u.length := List.length_pos.mpr hne
  have hsub : (0 : ℝ) ≤ (u.length : ℝ) - 1 := by
    have h : (1 : ℝ) ≤ (u.length : ℝ) := by exact_mod_cast hn1
    linarith
  have hidx0 : 0 ≤ p * ((u.length : ℝ) - 1) := mul_nonneg hp0 hsub
  have hKfloor : ((⌊p * ((u.length : ℝ) - 1)⌋.toNat : ℕ) : ℝ) =
      ((⌊p * ((u.length : ℝ) - 1)⌋ : ℤ) : ℝ) := by
    exact_mod_cast Int.toNat_of_nonneg (Int.floor_nonneg.mpr hidx0)
  have hKle : ((⌊p * ((u.length : ℝ) - 1)⌋.toNat : ℕ) : ℝ) ≤ p * ((u.length : ℝ) - 1) := by
    rw [hKfloor]
    exact Int.floor_le _
  have hKlt : p * ((u.length : ℝ) - 1) <
      ((⌊p * ((u.length : ℝ) - 1)⌋.toNat : ℕ) : ℝ) + 1 := by
    rw [hKfloor]
    exact Int.lt_floor_add_one _
  have hcnt := countTrue_generate mr sd p raw u
  have hbelow := count_below_scoreatpercentile u p hp0 hp1 hne hd
  refine ⟨?_, ?_, ?_, ?_, rfl⟩
  · intro i hi
    rw [generate_snd]
    rw [List.getD_eq_getElem _ _ (by simpa using hi), List.getElem_map,
      List.getD_eq_getElem _ _ hi]
    simp
  · rw [hcnt, hbelow]
    rw [abs_le]
    have hexp : p * ((u.length : ℝ) - 1) = p * u.length - p := by ring
    by_cases hfz : p * ((u.length : ℝ) - 1) -
        ((⌊p * ((u.length : ℝ) - 1)⌋.toNat : ℕ) : ℝ) = 0
    · rw [if_pos hfz]
      constructor <;> push_cast <;> linarith
    · rw [if_neg hfz]
      constructor <;> push_cast <;> linarith
  · intro hp
    subst hp
    rw [hcnt, hbelow]
    norm_num
  · intro hp
    subst hp
    rw [hcnt, hbelow]
    have h1 : (1 : ℝ) * ((u.length : ℝ) - 1) = ((u.length - 1 : ℕ) : ℝ) := by
      rw [Nat.cast_sub hn1]
      push_cast
      ring
    rw [h1, Int.floor_natCast, Int.toNat_natCast, sub_self, if_pos rfl, Nat.add_zero]

/-- C7 counterexample: `mean_accuracy = 1` with the two distinct uniform draws
`[1/10, 1/5]` synthesizes accuracy `[true, false]`: the trial holding the
maximal draw is not marked correct, so a table with `mean_accuracy = 1` does
not have all `n` trials correct. -/
theorem generate_all_correct_counterexample :
    (generate_test_df 1 1 1 [2, 3] [1/10, 1/5]).2 = [true, false] := by
  rw [generate_snd]
  have hsort : sortR [(1 : ℝ)/10, 1/5] = [1/10, 1/5] := by
    norm_num [sortR, List.insertionSort, List.orderedInsert]
  have hthr : scoreatpercentile [(1 : ℝ)/10, 1/5] (100 * 1) = 1/5 := by
    unfold scoreatpercentile
    rw [hsort]
    norm_num [List.getD_cons_succ, List.getD_cons_zero, Int.toNat_ofNat,
      show Int.toNat 3 = 3 from rfl]
  rw [hthr]
  simp only [List.map_cons, List.map_nil, List.cons.injEq, and_true]
  norm_num

/-- Witness for C7 (amended): with `mean_accuracy = 1` and distinct draws
`[1/10, 1/5]`, exactly `n - 1 = 1` trial is marked correct. -/
theorem generate_accuracy_semantics_witness :
    countTrue (generate_test_df 1 1 1 [2, 3] [1/10, 1/5]).2 =
      [(1 : ℝ)/10, 1/5].length - 1 :=
  ((generate_accuracy_semantics 1 1 1 1 1 [2, 3] [2, 3] [1/10, 1/5]
    (by norm_num) (by norm_num) (by simp)
    (by norm_num [List.nodup_cons])).2.2.2.1) rfl

/-! Structural lemmas connecting the synthesized table back to the scaled
correct-trial response times. -/

theorem generate_fst (mr sd p : ℝ) (raw u : List ℝ) :
    (generate_test_df mr sd p raw u).1 =
      List.zipWith (fun o r => o.getD r)
        (scale_values (maskByAccuracy (raw.map some) (generate_test_df mr sd p raw u).2)
          mr sd) raw :=
  rfl

theorem reject_outlier_rt_none {a : RTAnalysis} (h : a.outlier_cutoff_sd = none)
    (rt : List ℝ) : a.reject_outlier_rt rt = rt.map some := by
  unfold RTAnalysis.reject_outlier_rt
  rw [h]

theorem scale_values_eq_map (v : List (Option ℝ)) (mean sd : ℝ) :
    scale_values v mean sd = v.map (Option.map (fun x =>
      x * (sd / popStd (nonMissing v)) -
        listMean (nonMissing (v.map (Option.map
          (fun y => y * (sd / popStd (nonMissing v)))))) + mean)) := by
  unfold scale_values
  rw [List.map_map]
  congr 1
  funext o
  cases o <;> rfl

theorem mask_zip_getD (g : ℝ → ℝ) (raw : List ℝ) (bs : List Bool) :
    maskByAccuracy ((List.zipWith (fun o r => o.getD r)
        ((maskByAccuracy (raw.map some) bs).map (Option.map g)) raw).map some) bs =
      (maskByAccuracy (raw.map some) bs).map (Option.map g) := by
  induction raw generalizing bs with
  | nil => simp [maskByAccuracy]
  | cons r t ih =>
    cases bs with
    | nil => simp [maskByAccuracy]
    | cons b bt =>
      cases b <;> simp_all [maskByAccuracy]

theorem length_nonMissing_mask (raw : List ℝ) (bs : List Bool)
    (h : raw.length = bs.length) :
    (nonMissing (maskByAccuracy (raw.map some) bs)).length = countTrue bs := by
  induction raw generalizing bs with
  | nil =>
    cases bs with
    | nil => rfl
    | cons b bt => simp at h
  | cons r t ih =>
    cases bs with
    | nil => simp at h
    | cons b bt =>
      have h' : t.length = bt.length := by simpa using h
      cases b <;>
        simp_all [maskByAccuracy, nonMissing, countTrue, List.count_cons]

/-- C3 (amended): for every synthesized table — quantifying over every
realization of the raw Weibull samples and uniform draws — in which at least
one trial is correct, the correct trials' raw response times are not all equal
(nonzero standard deviation, so the rescaling divides by a nonzero value), and
every rescaled correct response time is strictly positive, a default analyzer's
`fit` succeeds, recovers `mean_rt_` exactly equal to the requested `mean_rt`,
and stores as `mean_accuracy_` the realized proportion of correct trials
(which approximates the requested `mean_accuracy` up to rounding). Without the
positivity condition `fit` can fail with `NegativeRTError`: the rescaling can
drive a correct trial's response time below zero. -/
theorem generate_fit_recovery (mr sd p : ℝ) (raw u : List ℝ)
    (hlen : raw.length = u.length)
    (hc : countTrue (generate_test_df mr sd p raw u).2 ≠ 0)
    (hs : popStd (nonMissing (maskByAccuracy (raw.map some)
        (generate_test_df mr sd p raw u).2)) ≠ 0)
    (hpos : ∀ x ∈ nonMissing (scale_values (maskByAccuracy (raw.map some)
        (generate_test_df mr sd p raw u).2) mr sd), 0 < x) :
    ((RTAnalysis.init none).fit (generate_test_df mr sd p raw u).1
        ((generate_test_df mr sd p raw u).2.map some)).2 = none ∧
    ((RTAnalysis.init none).fit (generate_test_df mr sd p raw u).1
        ((generate_test_df mr sd p raw u).2.map some)).1.mean_rt_ = some mr ∧
    ((RTAnalysis.init none).fit (generate_test_df mr sd p raw u).1
        ((generate_test_df mr sd p raw u).2.map some)).1.mean_accuracy_ =
      some ((countTrue (generate_test_df mr sd p raw u).2 : ℝ) / u.length) := by
  have hlens := generate_lengths mr sd p raw u hlen
  have hbslen : raw.length = (generate_test_df mr sd p raw u).2.length := by
    rw [hlen, hlens.2]
  have h1 : (generate_test_df mr sd p raw u).1.length =
      ((generate_test_df mr sd p raw u).2.map some).length := by
    rw [hlens.1, List.length_map, hlens.2]
  have h2 : allBool ((generate_test_df mr sd p raw u).2.map some) = true :=
    allBool_map_some _
  have htb : toBools ((generate_test_df mr sd p raw u).2.map some) =
      (generate_test_df mr sd p raw u).2 := toBools_map_some _
  have hmask : maskByAccuracy
      ((RTAnalysis.init none).reject_outlier_rt (generate_test_df mr sd p raw u).1)
      (toBools ((generate_test_df mr sd p raw u).2.map some)) =
      scale_values (maskByAccuracy (raw.map some) (generate_test_df mr sd p raw u).2)
        mr sd := by
    rw [reject_outlier_rt_none rfl, htb, generate_fst, scale_values_eq_map,
      mask_zip_getD, ← scale_values_eq_map]
  have hnm_len : (nonMissing (scale_values
      (maskByAccuracy (raw.map some) (generate_test_df mr sd p raw u).2) mr sd)).length =
      countTrue (generate_test_df mr sd p raw u).2 := by
    rw [scale_values_nonMissing, List.length_map, List.length_map,
      length_nonMissing_mask raw _ hbslen]
  have hne' : nonMissing (maskByAccuracy (raw.map some)
      (generate_test_df mr sd p raw u).2) ≠ [] := by
    intro habs
    apply hc
    rw [← length_nonMissing_mask raw _ hbslen, habs]
    rfl
  have hnm_ne : nonMissing (scale_values
      (maskByAccuracy (raw.map some) (generate_test_df mr sd p raw u).2) mr sd) ≠ [] := by
    intro habs
    apply hc
    rw [← hnm_len, habs]
    rfl
  have h3 : optPos (meanAccuracy (toBools
      ((generate_test_df mr sd p raw u).2.map some))) := by
    rw [htb, optPos_meanAccuracy]
    exact Nat.pos_of_ne_zero hc
  have h4 : rtPositive (maskByAccuracy
      ((RTAnalysis.init none).reject_outlier_rt (generate_test_df mr sd p raw u).1)
      (toBools ((generate_test_df mr sd p raw u).2.map some))) := by
    rw [hmask]
    exact ⟨hnm_ne, hpos⟩
  rw [fit_case_success h1 h2 h3 h4]
  refine ⟨rfl, ?_, ?_⟩
  · show meanOpt _ = some mr
    rw [hmask]
    unfold meanOpt
    rw [if_neg (fun hz => hnm_ne (List.length_eq_zero.mp hz)),
      scale_values_mean _ _ _ hne']
  · show meanAccuracy (toBools _) = _
    rw [htb]
    unfold meanAccuracy
    have hlz : (generate_test_df mr sd p raw u).2.length ≠ 0 := by
      intro hz
      exact hc (Nat.eq_zero_of_le_zero (hz ▸ countTrue_le_length _))
    rw [if_neg hlz, hlens.2]

/-- Witness for C3 (amended): the realization `raw = [2,4,3]`,
`u = [1/10, 2/10, 9/10]` with targets `mean_rt = 21/10`, `sd_rt = 9/10`,
`mean_accuracy = 4/5` yields accuracy `[true, true, false]`, scaled correct
response times `[6/5, 3]` (all positive), and `fit` succeeds recovering
`mean_rt_ = 21/10`. -/
theorem generate_fit_recovery_witness :
    ((RTAnalysis.init none).fit
        (generate_test_df (21/10) (9/10) (4/5) [2, 4, 3] [1/10, 2/10, 9/10]).1
        ((generate_test_df (21/10) (9/10) (4/5) [2, 4, 3] [1/10, 2/10, 9/10]).2.map
          some)).2 = none ∧
    ((RTAnalysis.init none).fit
        (generate_test_df (21/10) (9/10) (4/5) [2, 4, 3] [1/10, 2/10, 9/10]).1
        ((generate_test_df (21/10) (9/10) (4/5) [2, 4, 3] [1/10, 2/10, 9/10]).2.map
          some)).1.mean_rt_ = some (21/10) := by
  have hsort : sortR [(1 : ℝ)/10, 2/10, 9/10] = [1/10, 2/10, 9/10] := by
    norm_num [sortR, List.insertionSort, List.orderedInsert]
  have hthr : scoreatpercentile [(1 : ℝ)/10, 2/10, 9/10] (100 * (4/5)) = 31/50 := by
    unfold scoreatpercentile
    rw [hsort]
    norm_num [List.getD_cons_succ, List.getD_cons_zero, Int.toNat_ofNat,
      show Int.toNat 3 = 3 from rfl]
  have hacc : (generate_test_df (21/10) (9/10) (4/5) [2, 4, 3] [1/10, 2/10, 9/10]).2 =
      [true, true, false] := by
    rw [generate_snd, hthr]
    simp only [List.map_cons, List.map_nil, List.cons.injEq, and_true]
    norm_num
  have hmaskc : maskByAccuracy ([(2 : ℝ), 4, 3].map some) [true, true, false] =
      [some 2, some 4, none] := by
    simp [maskByAccuracy]
  have e1 : nonMissing [(some 2 : Option ℝ), some 4, none] = [2, 4] := by
    simp [nonMissing]
  have hvar : popVar [(2 : ℝ), 4] = 1 := by
    unfold popVar listMean
    norm_num
  have hstd : popStd [(2 : ℝ), 4] = 1 := by
    rw [popStd, hvar, Real.sqrt_one]
  have hscale : scale_values [(some 2 : Option ℝ), some 4, none] (21/10) (9/10) =
      [some (6/5), some 3, none] := by
    unfold scale_values
    rw [e1, hstd]
    norm_num [nonMissing, listMean, List.filterMap_cons, List.filterMap_nil, id]
  have h := generate_fit_recovery (21/10) (9/10) (4/5) [2, 4, 3] [1/10, 2/10, 9/10] rfl
    (by rw [hacc]; decide)
    (by rw [hacc, hmaskc, e1, hstd]; norm_num)
    (by
      rw [hacc, hmaskc, hscale]
      intro x hx
      simp only [nonMissing, List.filterMap_cons, id, List.filterMap_nil] at hx
      rcases List.mem_cons.mp hx with rfl | hx'
      · norm_num
      · rcases List.mem_cons.mp hx' with rfl | hx''
        · norm_num
        · simp at hx'')
  exact ⟨h.1, h.2.1⟩

/-- C3 counterexample: the realization `raw = [2, 8, 8, 10, 2]`,
`u = [1/10, 2/10, 3/10, 4/10, 9/10]` of `generate(mean_rt = 1, sd_rt = 1,
mean_accuracy = 4/5, n = 5)` (all parameters positive, as the claim requires)
synthesizes accuracy `[true, true, true, true, false]` and rescaled correct
response times `[-2/3, 4/3, 4/3, 2]`; the subsequent default-analyzer `fit`
does not succeed — it raises `NegativeRTError` — refuting the claim's
quantification over every realization of the random draws. -/
theorem generate_fit_recovery_counterexample :
    ((RTAnalysis.init none).fit
        (generate_test_df 1 1 (4/5) [2, 8, 8, 10, 2]
          [1/10, 2/10, 3/10, 4/10, 9/10]).1
        ((generate_test_df 1 1 (4/5) [2, 8, 8, 10, 2]
          [1/10, 2/10, 3/10, 4/10, 9/10]).2.map some)).2 =
      some FitError.negativeRT := by
  have hsort : sortR [(1 : ℝ)/10, 2/10, 3/10, 4/10, 9/10] =
      [1/10, 2/10, 3/10, 4/10, 9/10] := by
    norm_num [sortR, List.insertionSort, List.orderedInsert]
  have hthr : scoreatpercentile [(1 : ℝ)/10, 2/10, 3/10, 4/10, 9/10]
      (100 * (4/5)) = 1/2 := by
    unfold scoreatpercentile
    rw [hsort]
    norm_num [List.getD_cons_succ, List.getD_cons_zero, Int.toNat_ofNat,
      show Int.toNat 3 = 3 from rfl]
  have hacc : (generate_test_df 1 1 (4/5) [2, 8, 8, 10, 2]
      [1/10, 2/10, 3/10, 4/10, 9/10]).2 = [true, true, true, true, false] := by
    rw [generate_snd, hthr]
    simp only [List.map_cons, List.map_nil, List.cons.injEq, and_true]
    norm_num
  have hmaskc : maskByAccuracy ([(2 : ℝ), 8, 8, 10, 2].map some)
      [true, true, true, true, false] = [some 2, some 8, some 8, some 10, none] := by
    simp [maskByAccuracy]
  have e1 : nonMissing [(some 2 : Option ℝ), some 8, some 8, some 10, none] =
      [2, 8, 8, 10] := by
    simp [nonMissing]
  have hvar : popVar [(2 : ℝ), 8, 8, 10] = 9 := by
    unfold popVar listMean
    norm_num
  have hstd : popStd [(2 : ℝ), 8, 8, 10] = 3 := by
    rw [popStd, hvar, show (9 : ℝ) = 3 ^ 2 by norm_num, Real.sqrt_sq (by norm_num)]
  have hscale : scale_values [(some 2 : Option ℝ), some 8, some 8, some 10, none] 1 1 =
      [some (-2/3), some (4/3), some (4/3), some 2, none] := by
    unfold scale_values
    rw [e1, hstd]
    norm_num [nonMissing, listMean, List.filterMap_cons, List.filterMap_nil, id]
  have hrts : (generate_test_df 1 1 (4/5) [2, 8, 8, 10, 2]
      [1/10, 2/10, 3/10, 4/10, 9/10]).1 = [-2/3, 4/3, 4/3, 2, 2] := by
    rw [generate_fst, hacc, hmaskc, hscale]
    norm_num
  rw [hrts, hacc]
  have hma : meanAccuracy (toBools ([true, true, true, true, false].map some)) =
      some (4/5) := by
    rw [toBools_map_some]
    simp [meanAccuracy, countTrue]
  have h4 : ¬ rtPositive (maskByAccuracy
      ((RTAnalysis.init none).reject_outlier_rt [-2/3, 4/3, 4/3, 2, 2])
      (toBools ([true, true, true, true, false].map some))) := by
    rw [reject_outlier_rt_none rfl, toBools_map_some]
    intro h
    have hmem : (-2/3 : ℝ) ∈ nonMissing (maskByAccuracy
        ([(-2 : ℝ)/3, 4/3, 4/3, 2, 2].map some) [true, true, true, true, false]) := by
      simp [maskByAccuracy, nonMissing, List.filterMap_cons]
    have := h.2 _ hmem
    norm_num at this
  rw [fit_case_negRT (by simp) (allBool_map_some _) (by rw [hma]; norm_num [optPos]) h4]
